import Mathlib

/-!
Verification development for the tinytemplatec template compiler
(src/src/index.ts). The pipeline is embedded shallowly:

* `PropVal`/`VNode` model the virtual-node records built during parsing
  (the externally supplied constructor `h` is modelled as plain record
  construction, as in the spec's own test examples).
* `JSRegex` models a caller-supplied JavaScript regular expression by the
  operations the source uses: finding the first match in a string suffix
  together with its length and first capture group.  `mustacheRegex` is a
  concrete instance implementing /\x7b\x7b(\w+)\x7d\x7d/, the
  double-brace marker syntax used by the spec's examples.
* The tag scanner (regex `anyTag`/`openingTag`/`endTag`) is abstracted
  into a `Token` stream; `parseTokens` is the stack algorithm of `parse`
  verbatim on that stream.
* `parseProps`, `detectStaticNodes`, `parseInterpolations`,
  `compileProps`, `compileNode`, `compile` and `renderTemplate` are
  translated directly from the source.  `Math.random()` in `compileProps`
  is modelled by an explicit oracle string (`randomKey` in the options).
-/

/-- Character constants, named to keep quote and brace characters out of
the source text. `lbrace`/`rbrace` are the literal brace characters,
`quot` is the double quote, `apos` the single quote. -/
def lbrace : Char := Char.ofNat 123

/-- Right brace character. -/
def rbrace : Char := Char.ofNat 125

/-- Double-quote character. -/
def quot : Char := Char.ofNat 34

/-- Single-quote (apostrophe) character. -/
def apos : Char := Char.ofNat 39

/-- A prop value as stored by `parseProps`: either a string taken from a
`key="value"` attribute, or the literal boolean `true` used for
presence-only attributes (`props[pair[1]] = pair[2] || true`). -/
inductive PropVal where
  | str (s : String)
  | boolTrue
deriving DecidableEq, Repr

/-- How a prop value prints inside a JavaScript template literal:
a string interpolates as itself, the boolean `true` as "true". -/
def PropVal.interp : PropVal → String
  | .str s => s
  | .boolTrue => "true"

/-- The VirtualNode record: `type`, `props` (insertion-ordered), ordered
`children`, and `nodeValue` (present only on "#text" nodes).  The
`static` flag mutated by `detectStaticNodes` is modelled by the function
`detectStaticNodes` itself returning the classification. -/
inductive VNode where
  | mk (type : String) (props : List (String × PropVal))
       (children : List VNode) (nodeValue : Option String)

/-- Projection of a node's type. -/
def VNode.type : VNode → String
  | .mk t _ _ _ => t

/-- Projection of a node's props. -/
def VNode.props : VNode → List (String × PropVal)
  | .mk _ p _ _ => p

/-- Projection of a node's children. -/
def VNode.children : VNode → List VNode
  | .mk _ _ c _ => c

/-- Projection of a node's nodeValue. -/
def VNode.nodeValue : VNode → Option String
  | .mk _ _ _ v => v

/-- The node built by `h('#text', null, textContent)`. -/
def textNode (s : String) : VNode := .mk "#text" [] [] (some s)

/-- The node built by `h(type, props)` for an opening tag (children start
empty, filled in by tag closure). -/
def elemNode (ty : String) (props : List (String × PropVal)) : VNode :=
  .mk ty props [] none

/-- `content.forEach(container.append.bind(container))`: append the
accumulated content nodes, in order, to a container's children. -/
def VNode.appendChildren : VNode → List VNode → VNode
  | .mk ty props children nv, content => .mk ty props (children ++ content) nv

/-- A JavaScript regular expression, modelled by the operations the
source uses on the caller-supplied `interpolationRegex` and
`dataBindingRegex`: given a string (as a character list), report the
first match as (start offset, match length, first capture group), or
`none` when there is no match.  `global` records the /g flag, which in
JavaScript affects `String.replace`. -/
structure JSRegex where
  execSuffix : List Char → Option (Nat × Nat × Option String)
  global : Bool

/-- `s.search(r)` : index of the first match, `none` standing for -1. -/
def jsSearch (r : JSRegex) (s : String) : Option Nat :=
  (r.execSuffix s.data).map (fun m => m.1)

/-- `r.exec(s)` restricted to what the source reads from it: `none` when
there is no match, otherwise `some` of capture group 1 (which itself may
be absent). -/
def jsExecCap (r : JSRegex) (s : String) : Option (Option String) :=
  (r.execSuffix s.data).map (fun m => m.2.2)

/-- A JavaScript template-literal splice of a possibly-undefined capture:
`undefined` stringifies to "undefined". -/
def capDisplay : Option String → String
  | some c => c
  | none => "undefined"

/-- One step of `String.replace` with a callback: emit the text before
the match, the callback's output, and continue after the match (for a
global regex) or stop after the first replacement.  A zero-length match
advances one character, as JavaScript does.  `fuel` bounds the recursion
(the string length suffices for any well-behaved regex). -/
def jsReplaceAux (r : JSRegex) (f : Option String → String) :
    Nat → List Char → String
  | 0, cs => String.mk cs
  | fuel + 1, cs =>
    match r.execSuffix cs with
    | none => String.mk cs
    | some (off, len, cap) =>
      String.mk (cs.take off) ++ f cap ++
        (if r.global then
          (if len = 0 then
            match cs.drop off with
            | [] => ""
            | c :: rest => String.mk [c] ++ jsReplaceAux r f fuel rest
          else jsReplaceAux r f fuel (cs.drop (off + len)))
        else String.mk (cs.drop (off + len)))

/-- `s.replace(r, f)` with a callback reading the first capture group. -/
def jsReplace (r : JSRegex) (s : String) (f : Option String → String) : String :=
  jsReplaceAux r f (s.data.length + 1) s.data

/-- Word character of the JavaScript \w class. -/
def isWordChar (c : Char) : Bool := c.isAlphanum || c == '_'

/-- Match of /\x7b\x7b(\w+)\x7d\x7d/ at the start of a suffix: two left
braces, a non-empty word run, two right braces.  Returns the match
length and the captured word. -/
def mustacheMatchAt : List Char → Option (Nat × String)
  | a :: b :: rest =>
    if a = lbrace ∧ b = lbrace then
      let run := rest.takeWhile isWordChar
      if run.length = 0 then none
      else
        match rest.drop run.length with
        | c :: d :: _ => if c = rbrace ∧ d = rbrace then
            some (run.length + 4, String.mk run) else none
        | _ => none
    else none
  | _ => none

/-- Scan a suffix for the first mustache match, tracking the offset. -/
def mustacheSearchAux : List Char → Nat → Option (Nat × Nat × Option String)
  | [], _ => none
  | c :: tl, i =>
    match mustacheMatchAt (c :: tl) with
    | some (len, cap) => some (i, len, some cap)
    | none => mustacheSearchAux tl (i + 1)

/-- The concrete regex /\x7b\x7b(\w+)\x7d\x7d/ (with or without the /g
flag), the marker syntax of the spec's interpolation and data-binding
examples. -/
def mustacheRegex (g : Bool) : JSRegex :=
  ⟨fun l => mustacheSearchAux l 0, g⟩

/-- Character class [^\s/"'=] of the `attributes` regex: an attribute
key character is anything but whitespace, slash, double quote, single
quote and equals sign. -/
def isAttrKeyChar (c : Char) : Bool :=
  !(c.isWhitespace || c == '/' || c == quot || c == apos || c == '=')

/-- `findAll(propString, regex.attributes)`: repeatedly match
/([^\s/"'=]+)(?:="([^"]*)")?/g, producing (key, optional value) pairs.
A match is a maximal non-empty run of key characters, optionally
followed immediately by ="value" with a closed double quote; when the
optional group cannot match (no equals-quote, or an unterminated
value), the match is the key alone and scanning resumes right after
it, exactly as the JavaScript regex engine does. -/
def attrScan : List Char → List (String × Option String)
  | [] => []
  | c :: rest =>
    if isAttrKeyChar c then
      match ha : rest.dropWhile isAttrKeyChar with
      | e :: q :: more =>
        if e = '=' ∧ q = quot then
          match hq : more.dropWhile (fun ch => ch ≠ quot) with
          | _ :: tail =>
            (String.mk (c :: rest.takeWhile isAttrKeyChar),
              some (String.mk (more.takeWhile (fun ch => ch ≠ quot)))) :: attrScan tail
          | [] =>
            (String.mk (c :: rest.takeWhile isAttrKeyChar), none) :: attrScan (e :: q :: more)
        else
          (String.mk (c :: rest.takeWhile isAttrKeyChar), none) :: attrScan (e :: q :: more)
      | l => (String.mk (c :: rest.takeWhile isAttrKeyChar), none) :: attrScan l
    else attrScan rest
termination_by l => l.length
decreasing_by
  all_goals simp_wf
  · have h1 : (more.dropWhile (fun ch => ch ≠ quot)).length ≤ more.length :=
      (List.dropWhile_sublist _).length_le
    have h2 : (rest.dropWhile isAttrKeyChar).length ≤ rest.length :=
      (List.dropWhile_sublist _).length_le
    rw [hq] at h1; rw [ha] at h2; simp at h1 h2; omega
  · have h2 : (rest.dropWhile isAttrKeyChar).length ≤ rest.length :=
      (List.dropWhile_sublist _).length_le
    rw [ha] at h2; simp at h2; omega
  · have h2 : (rest.dropWhile isAttrKeyChar).length ≤ rest.length :=
      (List.dropWhile_sublist _).length_le
    rw [ha] at h2; simp at h2; omega
  · have h2 : (rest.dropWhile isAttrKeyChar).length ≤ rest.length :=
      (List.dropWhile_sublist _).length_le
    rw [ha] at h2; omega

/-- JavaScript object assignment `props[k] = v` on an insertion-ordered
map: overwrite in place when the key exists, append otherwise. -/
def objAssign (props : List (String × PropVal)) (k : String) (v : PropVal) :
    List (String × PropVal) :=
  if props.any (fun p => p.1 == k) then
    props.map (fun p => if p.1 == k then (k, v) else p)
  else props ++ [(k, v)]

/-- `pair[2] || true`: an absent capture (undefined) and the empty
string are both falsy, so both store the boolean `true`. -/
def propValOr : Option String → PropVal
  | some v => if v = "" then .boolTrue else .str v
  | none => .boolTrue

/-- `parseProps` on a character list: fold the attribute matches into an
object with `props[pair[1]] = pair[2] || true`. -/
def parsePropsL (l : List Char) : List (String × PropVal) :=
  (attrScan l).foldl (fun props pair => objAssign props pair.1 (propValOr pair.2)) []

/-- `parseProps(propString)` from the source. -/
def parseProps (s : String) : List (String × PropVal) := parsePropsL s.data

/-- A directive handler `(value, renderRest) => code`, as registered in
the `directives` mapping of the compiler options. -/
def Handler := PropVal → (Unit → String) → String

/-- The `CompilerOptions` record.  The node-construction function `h` is
modelled concretely as `VNode` record construction (see `textNode` and
`elemNode`), so it is not a field here; `randomKey` is the oracle
modelling the `Math.random()` suffix used for synthetic keys. -/
structure CompilerOptions where
  directives : List (String × Handler)
  interpolationRegex : JSRegex
  dataBindingRegex : JSRegex
  randomKey : String

/-- `detectStaticNodes(vn, options)` from the source.  For a "#text"
node the source computes `!vn.nodeValue?.search(interpolationRegex)`:
`search` yields the first match index or -1, and `!` maps only 0 to
true, so the node is classified static exactly when a match starts at
index 0 (and dynamic when there is no match at all); an undefined
nodeValue gives `!undefined = true`.  For an element node: no directive
key among the props, all children static, and no prop key matched by
the data-binding regex. -/
def detectStaticNodes (vn : VNode) (options : CompilerOptions) : Bool :=
  match vn with
  | .mk ty props children nv =>
    if ty = "#text" then
      match nv with
      | none => true
      | some s => jsSearch options.interpolationRegex s == some 0
    else
      (options.directives.all fun d => !(props.any fun p => p.1 == d.1)) &&
      (children.attach.all fun c => detectStaticNodes c.1 options) &&
      (props.all fun p => jsExecCap options.dataBindingRegex p.1 == none)
termination_by sizeOf vn
decreasing_by
  simp_wf
  have := List.sizeOf_lt_of_mem c.2
  omega

/-- `parseInterpolations(src, interpolationRegex)` from the source:
each interpolation marker is replaced by a break out of the enclosing
single-quoted string literal and a concatenation splice of the captured
expression: `(m, c1) => ' + c1 + '` (with surrounding quotes). -/
def parseInterpolations (src : String) (interpolationRegex : JSRegex) : String :=
  jsReplace interpolationRegex src
    (fun c1 => "\x27 + " ++ capDisplay c1 ++ " + \x27")

/-- One entry of the props object literal built by `compileProps`: when
the KEY matches the data-binding regex, the captured name becomes the
object key and the value is spliced verbatim (unquoted); otherwise the
key is used as-is and the value is emitted as a single-quoted string
literal. -/
def compilePropEntry (dataBindingRegex : JSRegex) (pair : String × PropVal) : String :=
  match jsExecCap dataBindingRegex pair.1 with
  | some cap => capDisplay cap ++ ": " ++ pair.2.interp
  | none => pair.1 ++ ": \x27" ++ pair.2.interp ++ "\x27"

/-- The `hasKey` check of `compileProps`: some prop key is literally
"key", or is matched by the data-binding regex with first capture
group exactly "key". -/
def hasKeyProp (props : List (String × PropVal)) (dataBindingRegex : JSRegex) : Bool :=
  props.any fun p => p.1 == "key" || jsExecCap dataBindingRegex p.1 == some (some "key")

/-- The props dictionary after the synthetic-key step of `compileProps`:
if `hasKey` fails, `props['key'] = 'y-key-' + (Math.random() + '').slice(2)`
is assigned (the random suffix is the `randomKey` oracle). -/
def compilePropsDict (props : List (String × PropVal)) (dataBindingRegex : JSRegex)
    (randomKey : String) : List (String × PropVal) :=
  if hasKeyProp props dataBindingRegex then props
  else objAssign props "key" (.str ("y-key-" ++ randomKey))

/-- `compileProps(props, options)` from the source: the brace-wrapped,
comma-joined entries of the (possibly key-augmented) props dictionary. -/
def compileProps (props : List (String × PropVal)) (options : CompilerOptions) : String :=
  "\x7b" ++ String.intercalate ","
    ((compilePropsDict props options.dataBindingRegex options.randomKey).map
      (compilePropEntry options.dataBindingRegex)) ++ "\x7d"

/-- The directive search of `compileNode`:
`for (const prop in vn.props) if (prop in options.directives)` visits
props in insertion order and stops at the first whose key is registered;
the result is that prop (with its handler) together with the remaining
props after `delete vn.props[prop]`. -/
def splitDirective : List (String × PropVal) → List (String × Handler) →
    Option ((String × PropVal × Handler) × List (String × PropVal))
  | [], _ => none
  | (k, v) :: rest, ds =>
    match ds.lookup k with
    | some f => some ((k, v, f), rest)
    | none =>
      match splitDirective rest ds with
      | some (d, rem) => some (d, (k, v) :: rem)
      | none => none

mutual
/-- Size measure for the `compileNode` recursion: one per node, plus one
per prop, plus the sizes of the children. -/
def VNode.size : VNode → Nat
  | .mk _ props children _ => 1 + props.length + VNode.sizeList children

/-- Sum of the sizes of a list of nodes. -/
def VNode.sizeList : List VNode → Nat
  | [] => 0
  | c :: cs => VNode.size c + VNode.sizeList cs
end

/-- `compileNode(vn, options)` from the source.  A "#text" node emits
`h('#text', null, '<interpolated text>')`.  An element node first runs
`detectStaticNodes` (a pure classification here, so the call has no
effect and is omitted); then, if some prop key is a registered
directive, the first such prop is removed and generation is delegated
to its handler, passing the prop's value and a continuation that
compiles the node without that prop; otherwise it emits
`h('<type>',<props>,[<children>])`. -/
def compileNode (vn : VNode) (options : CompilerOptions) : String :=
  match vn with
  | .mk ty props children nv =>
    if ty = "#text" then
      "h(\x27#text\x27, null, \x27" ++
        parseInterpolations (nv.getD "") options.interpolationRegex ++ "\x27)"
    else
      match hd : splitDirective props options.directives with
      | some ((_, v, f), rem) =>
        f v (fun _ => compileNode (.mk ty rem children nv) options)
      | none =>
        "h(\x27" ++ ty ++ "\x27," ++ compileProps props options ++ ",[" ++
          String.intercalate "," (children.attach.map fun c => compileNode c.1 options) ++
          "])"
termination_by VNode.size vn
decreasing_by
  · rename_i props children nv hne k
    have hlen : ∀ (ps rem : List (String × PropVal)) (d : String × PropVal × Handler),
        splitDirective ps options.directives = some (d, rem) → rem.length < ps.length := by
      intro ps
      induction ps with
      | nil => intro rem d h; simp [splitDirective] at h
      | cons p pt ih =>
        intro rem d h
        obtain ⟨k, v2⟩ := p
        rw [splitDirective] at h
        cases hl : options.directives.lookup k with
        | some f2 =>
          rw [hl] at h
          simp only [Option.some.injEq, Prod.mk.injEq] at h
          obtain ⟨-, h2⟩ := h
          subst h2
          simp
        | none =>
          rw [hl] at h
          cases hs : splitDirective pt options.directives with
          | none => rw [hs] at h; simp at h
          | some x =>
            rw [hs] at h
            obtain ⟨d2, rem2⟩ := x
            simp only [Option.some.injEq, Prod.mk.injEq] at h
            obtain ⟨-, h2⟩ := h
            subst h2
            have := ih rem2 d2 hs
            simp
            omega
    have := hlen props rem (k, v, f) hd
    simp [VNode.size]
    omega
  · rename_i props children nv hne
    have hmem : ∀ cs : List VNode, c.1 ∈ cs → VNode.size c.1 ≤ VNode.sizeList cs := by
      intro cs
      induction cs with
      | nil => intro h; cases h
      | cons x xs ih =>
        intro h
        rw [VNode.sizeList]
        cases h with
        | head => omega
        | tail _ hm => have := ih hm; omega
    have := hmem children c.2
    simp [VNode.size]
    omega

/-- A tag-like token of the template, as produced by the `anyTag` /
`openingTag` regex scan in `parse`: text between tags, an opening tag
(with its parsed props and self-closing flag), or a closing tag (whose
`raw` is the full matched text `nextTag[0]`, used in the error
message).  The regex scanner is abstracted to this token stream; the
stack algorithm below is the loop body of `parse` verbatim. -/
inductive Token where
  | textTok (s : String)
  | openTok (type : String) (props : List (String × PropVal)) (selfClosing : Bool)
  | closeTok (type : String) (raw : String)

/-- An entry of the parse stack: the in-progress node together with its
membership in the `closed` set (a self-closed tag, or a container whose
closing tag has been consumed). -/
structure StackEntry where
  node : VNode
  closed : Bool

/-- The closing-tag loop of `parse`: pop nodes off the stack,
accumulating them as content in original order, while the top is absent
or is closed or has a different type; on a matching unclosed top,
append the content to it and mark it closed.  `none` models the
"No corresponding opening tag found" throw when the stack empties. -/
def closeTag (name : String) : List StackEntry → List VNode → Option (List StackEntry)
  | [], _ => none
  | e :: rest, content =>
    if e.closed || e.node.type ≠ name then closeTag name rest (e.node :: content)
    else some (⟨e.node.appendChildren content, true⟩ :: rest)

/-- The main loop of `parse` over the token stream, with the stack held
top-first.  Non-empty trimmed text is pushed as a "#text" node; an
opening tag is constructed via `h` and pushed (already closed when
self-closing); a closing tag runs the pop-and-append step and aborts
the whole parse with the error when no matching unclosed node exists.
When the tokens are exhausted, the stack in array order is the forest. -/
def parseTokens : List Token → List StackEntry → Except String (List VNode)
  | [], stack => .ok (stack.reverse.map (fun e => e.node))
  | t :: rest, stack =>
    match t with
    | .textTok s =>
      let tc := s.trim
      parseTokens rest (if tc = "" then stack else ⟨textNode tc, false⟩ :: stack)
    | .openTok ty props self => parseTokens rest (⟨elemNode ty props, self⟩ :: stack)
    | .closeTok name raw =>
      match closeTag name stack [] with
      | none => .error ("No corresponding opening tag found for " ++ raw)
      | some stack2 => parseTokens rest stack2

/-- `parse(html, h)` from the source, on the token stream of the
template. -/
def parse (tokens : List Token) : Except String (List VNode) :=
  parseTokens tokens []

/-- The code built by `compile` from the parsed forest:
`'return ' + compileNode(parse(template, options.h)[0], options)`.
Indexing `[0]` on an empty forest yields `undefined`, on which
`compileNode` immediately throws; that failure is modelled as `none`.
Only the first root is ever consulted. -/
def compileCode (roots : List VNode) (options : CompilerOptions) : Option String :=
  match roots with
  | [] => none
  | r :: _ => some ("return " ++ compileNode r options)

/-- `compile(template, options)` up to the evaluator: parse the token
stream and generate the code string handed to `saferEval`. -/
def compile (tokens : List Token) (options : CompilerOptions) :
    Except String (Option String) :=
  (parse tokens).map (fun roots => compileCode roots options)

/-- The scope object built by the returned render function:
`Object.create(this)` (inheriting from the caller's invocation
context) with an own property `h`.  `H` is the type of the
node-construction function, kept abstract. -/
structure RenderScope (H : Type) (Ctx : Type) where
  ctx : Ctx
  h : H

/-- The `renderTemplate` closure returned by `compile`:
`function renderTemplate(h) { const scope = Object.create(this);
scope.h = options.h; return innerRender(scope) }`.  `optionsH` is the
compile-time `options.h`, `innerRender` the evaluator obtained from
`saferEval`, `thisCtx` the caller's `this`, and `hRender` the
node-construction function passed at render time (which the body never
reads). -/
def renderTemplate {H Ctx R : Type} (optionsH : H)
    (innerRender : RenderScope H Ctx → R) (thisCtx : Ctx) (hRender : H) : R :=
  innerRender ⟨thisCtx, optionsH⟩

/-- The example directive of the spec: `if` registered as
`(v, rest) => "(" + v + ") ? (" + rest() + ") : null"`. -/
def ifHandler : Handler :=
  fun v rest => "(" ++ v.interp ++ ") ? (" ++ rest () ++ ") : null"

/-- Concrete compiler options used by the examples: the `if` directive,
mustache interpolation and data-binding markers, and "0" as the
random-key oracle. -/
def demoOptions : CompilerOptions :=
  ⟨[("if", ifHandler)], mustacheRegex true, mustacheRegex false, "0"⟩

/-- Unfolding of `detectStaticNodes` at a "#text" node. -/
theorem detectStaticNodes_text (s : String) (options : CompilerOptions) :
    detectStaticNodes (textNode s) options =
      (jsSearch options.interpolationRegex s == some 0) := by
  conv_lhs => rw [detectStaticNodes.eq_def]
  simp [textNode]

/-- Unfolding of `detectStaticNodes` at an element node. -/
theorem detectStaticNodes_elem (ty : String) (props : List (String × PropVal))
    (children : List VNode) (nv : Option String) (options : CompilerOptions)
    (hty : ty ≠ "#text") :
    detectStaticNodes (.mk ty props children nv) options =
      ((options.directives.all fun d => !(props.any fun p => p.1 == d.1)) &&
       (children.attach.all fun c => detectStaticNodes c.1 options) &&
       (props.all fun p => jsExecCap options.dataBindingRegex p.1 == none)) := by
  conv_lhs => rw [detectStaticNodes.eq_def]
  simp [hty]

/-- C1: the spec says a "#text" node is static iff its raw value has no
interpolation marker; the code computes `!nodeValue.search(regex)`,
which is true only when a match STARTS AT INDEX 0.  So "hello" (no
marker) is classified dynamic and a value beginning with a marker is
classified static — the code contradicts the rule on both sides. -/
theorem c1_text_static_rule_violated :
    detectStaticNodes (textNode "hello") demoOptions = false ∧
    detectStaticNodes (textNode "\x7b\x7bx\x7d\x7d world") demoOptions = true ∧
    detectStaticNodes (textNode "hi \x7b\x7bx\x7d\x7d") demoOptions = false := by
  refine ⟨?_, ?_, ?_⟩ <;> · rw [detectStaticNodes_text]; decide

/-- C2: an element node is classified static iff no prop key is a
registered directive name, every child is recursively classified
static, and no prop key is matched by the data-binding regex. -/
theorem c2_element_static_iff (ty : String) (props : List (String × PropVal))
    (children : List VNode) (nv : Option String) (options : CompilerOptions)
    (hty : ty ≠ "#text") :
    detectStaticNodes (.mk ty props children nv) options = true ↔
      ((∀ p ∈ props, ∀ d ∈ options.directives, p.1 ≠ d.1) ∧
       (∀ c ∈ children, detectStaticNodes c options = true) ∧
       (∀ p ∈ props, jsExecCap options.dataBindingRegex p.1 = none)) := by
  rw [detectStaticNodes_elem ty props children nv options hty]
  simp only [Bool.and_eq_true, List.all_eq_true, List.any_eq_false, Bool.not_eq_true',
    beq_iff_eq]
  constructor
  · rintro ⟨⟨h1, h2⟩, h3⟩
    exact ⟨fun p hp d hd => h1 d hd p hp,
           fun c hc => h2 ⟨c, hc⟩ (List.mem_attach _ _), h3⟩
  · rintro ⟨h1, h2, h3⟩
    exact ⟨⟨fun d hd p hp => h1 p hp d hd, fun c _ => h2 c.1 c.2⟩, h3⟩

/-- Witness for C2 at a concrete element node. -/
theorem c2_element_static_iff_witness :
    (("div" : String) ≠ "#text") ∧
    (detectStaticNodes (.mk "div" [("x", PropVal.str "1")] [] none) demoOptions = true ↔
      ((∀ p ∈ [("x", PropVal.str "1")], ∀ d ∈ demoOptions.directives, p.1 ≠ d.1) ∧
       (∀ c ∈ ([] : List VNode), detectStaticNodes c demoOptions = true) ∧
       (∀ p ∈ [("x", PropVal.str "1")], jsExecCap demoOptions.dataBindingRegex p.1 = none))) :=
  ⟨by decide,
   c2_element_static_iff "div" [("x", PropVal.str "1")] [] none demoOptions (by decide)⟩

/-- C3: when a closing tag is processed and no unclosed node of the
matching type is anywhere on the stack, `parse` aborts at once with the
"No corresponding opening tag found" error; no forest is returned. -/
theorem c3_unmatched_closing_tag_errors (name raw : String) (rest : List Token)
    (stack : List StackEntry)
    (hstack : ∀ e ∈ stack, e.closed = true ∨ e.node.type ≠ name) :
    parseTokens (Token.closeTok name raw :: rest) stack =
      .error ("No corresponding opening tag found for " ++ raw) := by
  have hc : ∀ content, closeTag name stack content = none := by
    induction stack with
    | nil => intro content; rfl
    | cons e es ih =>
      intro content
      rw [closeTag]
      rw [if_pos ?cond]
      case cond =>
        rcases hstack e (by simp) with h | h
        · simp [h]
        · simp [h]
      exact ih (fun x hx => hstack x (by simp [hx])) _
  rw [parseTokens]
  simp [hc []]

/-- Witness for C3: parsing "<div></span>" (tokens: open div, close
span) fails with the structural parse error. -/
theorem c3_unmatched_closing_tag_errors_witness :
    (∀ e ∈ [StackEntry.mk (elemNode "div" []) false],
        e.closed = true ∨ e.node.type ≠ "span") ∧
    parseTokens [Token.closeTok "span" "</span>"] [⟨elemNode "div" [], false⟩] =
      .error ("No corresponding opening tag found for " ++ "</span>") :=
  ⟨by decide,
   c3_unmatched_closing_tag_errors "span" "</span>" [] [⟨elemNode "div" [], false⟩]
     (by decide)⟩

/-- C5: the claim says the render function injects the
node-construction function PASSED AT RENDER TIME into the scope; the
code instead assigns `scope.h = options.h` and never reads its
parameter, so the render-time argument is ignored: the result is
identical for any two render-time arguments, and a scope-reading
evaluator observes the compile-time `options.h` (0 below), not the
argument (1). -/
theorem c5_render_time_h_ignored :
    (∀ (H Ctx R : Type) (optionsH : H) (innerRender : RenderScope H Ctx → R)
        (thisCtx : Ctx) (h1 h2 : H),
      renderTemplate optionsH innerRender thisCtx h1 =
        renderTemplate optionsH innerRender thisCtx h2) ∧
    renderTemplate (0 : Nat) (fun s : RenderScope Nat Nat => s.h) 5 1 = 0 ∧
    (0 : Nat) ≠ 1 :=
  ⟨fun _ _ _ _ _ _ _ _ => rfl, rfl, by decide⟩

/-- C9: `compile` reads only the first root of the parsed forest: the
generated code for a multi-root forest equals that for the first root
alone, and no error is raised for the extra roots. -/
theorem c9_multi_root_truncation (r : VNode) (rest : List VNode)
    (options : CompilerOptions) :
    compileCode (r :: rest) options = compileCode [r] options ∧
    (compileCode (r :: rest) options).isSome = true :=
  ⟨rfl, rfl⟩

/-- The directive search finds the first prop whose key is registered,
removes it, and keeps the surrounding props. -/
theorem splitDirective_append (pre post : List (String × PropVal)) (k : String)
    (v : PropVal) (f : Handler) (ds : List (String × Handler))
    (hpre : ∀ p ∈ pre, ds.lookup p.1 = none)
    (hk : ds.lookup k = some f) :
    splitDirective (pre ++ (k, v) :: post) ds = some ((k, v, f), pre ++ post) := by
  induction pre with
  | nil => simp [splitDirective, hk]
  | cons p ps ih =>
    obtain ⟨k2, v2⟩ := p
    have h2 : ds.lookup k2 = none := hpre (k2, v2) (by simp)
    rw [List.cons_append, splitDirective, h2, ih (fun q hq => hpre q (by simp [hq]))]
    rfl

/-- C6: for an element node whose first directive-registered prop (in
insertion order) is `(k, v)` with handler `f`, `compileNode` removes
that prop and returns exactly the handler's output on `v` and a
continuation compiling the node without the prop. -/
theorem c6_first_directive_delegation (ty : String) (pre post : List (String × PropVal))
    (k : String) (v : PropVal) (f : Handler) (children : List VNode)
    (nv : Option String) (options : CompilerOptions)
    (hty : ty ≠ "#text")
    (hpre : ∀ p ∈ pre, options.directives.lookup p.1 = none)
    (hk : options.directives.lookup k = some f) :
    compileNode (.mk ty (pre ++ (k, v) :: post) children nv) options =
      f v (fun _ => compileNode (.mk ty (pre ++ post) children nv) options) := by
  have hsplit := splitDirective_append pre post k v f options.directives hpre hk
  conv_lhs => rw [compileNode.eq_def]
  simp only []
  rw [if_neg hty]
  split
  · rename_i k2 v2 f2 rem2 heq
    rw [hsplit] at heq
    cases heq
    rfl
  · rename_i heq
    rw [hsplit] at heq
    cases heq

/-- Witness for C6: the spec's example.  With the `if` directive
registered, `<p if="show">x</p>` compiles to
`(show) ? (<code for the node without the prop>) : null`. -/
theorem c6_first_directive_delegation_witness :
    (("p" : String) ≠ "#text") ∧
    compileNode (.mk "p" [("if", PropVal.str "show")] [textNode "x"] none) demoOptions =
      "(show) ? (" ++
        compileNode (.mk "p" [] [textNode "x"] none) demoOptions ++ ") : null" := by
  refine ⟨by decide, ?_⟩
  have h := c6_first_directive_delegation "p" [] [] "if" (PropVal.str "show") ifHandler
    [textNode "x"] none demoOptions (by decide) (by simp) rfl
  simpa [ifHandler, PropVal.interp] using h

/-- C7 counterexample: with the mustache data-binding pattern, the prop
`id="{{userId}}"` (marker in the VALUE, key is plain `id`) is emitted
as the literal string entry `id: '{{userId}}'`, not as the claimed
unquoted `id: userId` — the data-binding regex is matched against prop
KEYS only. -/
theorem c7_value_binding_not_spliced :
    compileProps [("id", PropVal.str "\x7b\x7buserId\x7d\x7d")] demoOptions =
      "\x7bid: \x27\x7b\x7buserId\x7d\x7d\x27,key: \x27y-key-0\x27\x7d" ∧
    compilePropEntry (mustacheRegex false) ("id", PropVal.str "\x7b\x7buserId\x7d\x7d") =
      "id: \x27\x7b\x7buserId\x7d\x7d\x27" ∧
    ("id: \x27\x7b\x7buserId\x7d\x7d\x27" : String) ≠ "id: userId" := by
  refine ⟨by decide, by decide, by decide⟩

/-- C7 amended: a props entry is spliced unquoted exactly when the prop
KEY matches the data-binding pattern — `{{id}}="userId"` yields
`id: userId`, while `id="{{userId}}"` yields the literal
`id: '{{userId}}'`. -/
theorem c7_key_binding_spliced (r : JSRegex) (pair : String × PropVal)
    (cap : Option String) :
    (jsExecCap r pair.1 = some cap →
      compilePropEntry r pair = capDisplay cap ++ ": " ++ pair.2.interp) ∧
    (jsExecCap r pair.1 = none →
      compilePropEntry r pair = pair.1 ++ ": \x27" ++ pair.2.interp ++ "\x27") ∧
    compilePropEntry (mustacheRegex false) ("\x7b\x7bid\x7d\x7d", PropVal.str "userId") =
      "id: userId" := by
  refine ⟨fun h => ?_, fun h => ?_, by decide⟩ <;> simp [compilePropEntry, h]

/-- Witness for C7's amended rule at the binding-key example. -/
theorem c7_key_binding_spliced_witness :
    jsExecCap (mustacheRegex false) "\x7b\x7bid\x7d\x7d" = some (some "id") ∧
    compilePropEntry (mustacheRegex false) ("\x7b\x7bid\x7d\x7d", PropVal.str "userId") =
      capDisplay (some "id") ++ ": " ++ (PropVal.str "userId").interp :=
  ⟨by decide,
   (c7_key_binding_spliced (mustacheRegex false) ("\x7b\x7bid\x7d\x7d", PropVal.str "userId")
      (some "id")).1 (by decide)⟩

/-- C8: when no prop resolves (literally or through the data-binding
capture) to the key "key", `compileProps` appends a synthetic
`key: 'y-key-<random>'` prop; when one does, nothing is added; either
way the resulting props dictionary has an entry resolving to "key". -/
theorem c8_synthetic_key (props : List (String × PropVal)) (r : JSRegex) (rk : String) :
    (hasKeyProp props r = false →
      compilePropsDict props r rk = props ++ [("key", PropVal.str ("y-key-" ++ rk))]) ∧
    (hasKeyProp props r = true → compilePropsDict props r rk = props) ∧
    hasKeyProp (compilePropsDict props r rk) r = true := by
  have hmain : hasKeyProp props r = false →
      compilePropsDict props r rk = props ++ [("key", PropVal.str ("y-key-" ++ rk))] := by
    intro h
    have hk : props.any (fun p => p.1 == "key") = false := by
      rw [List.any_eq_false]
      intro p hp
      rw [hasKeyProp, List.any_eq_false] at h
      have := h p hp
      simp only [Bool.or_eq_true, not_or] at this
      simpa using this.1
    rw [compilePropsDict, if_neg (by simp [h]), objAssign, if_neg (by simp [hk])]
  refine ⟨hmain, fun h => by rw [compilePropsDict, if_pos h], ?_⟩
  cases hh : hasKeyProp props r with
  | true => rw [compilePropsDict, if_pos hh]; exact hh
  | false =>
    rw [hmain hh, hasKeyProp, List.any_append]
    simp

/-- Witness for C8 at a concrete props list lacking a key entry. -/
theorem c8_synthetic_key_witness :
    hasKeyProp [("id", PropVal.str "x")] (mustacheRegex false) = false ∧
    compilePropsDict [("id", PropVal.str "x")] (mustacheRegex false) "0" =
      [("id", PropVal.str "x")] ++ [("key", PropVal.str ("y-key-" ++ "0"))] :=
  ⟨by decide,
   (c8_synthetic_key [("id", PropVal.str "x")] (mustacheRegex false) "0").1 (by decide)⟩

/-- Over a prefix on which the predicate holds everywhere, `takeWhile`
keeps the prefix and continues. -/
theorem takeWhile_append_all {α : Type} (p : α → Bool) (l l2 : List α)
    (h : ∀ a ∈ l, p a = true) :
    (l ++ l2).takeWhile p = l ++ l2.takeWhile p := by
  induction l with
  | nil => simp
  | cons a as ih =>
    rw [List.cons_append, List.takeWhile_cons, if_pos (h a (by simp)),
      ih (fun b hb => h b (by simp [hb]))]
    rfl

/-- Over a prefix on which the predicate holds everywhere, `dropWhile`
discards the prefix and continues. -/
theorem dropWhile_append_all {α : Type} (p : α → Bool) (l l2 : List α)
    (h : ∀ a ∈ l, p a = true) :
    (l ++ l2).dropWhile p = l2.dropWhile p := by
  induction l with
  | nil => simp
  | cons a as ih =>
    rw [List.cons_append, List.dropWhile_cons, if_pos (h a (by simp))]
    exact ih (fun b hb => h b (by simp [hb]))

/-- The attribute scan on a lone key, and on a key with an explicit
empty-string value: the former matches with no capture, the latter with
the capture "". -/
theorem c10_attr_scan (k : List Char) (hne : k ≠ [])
    (hkey : ∀ c ∈ k, isAttrKeyChar c = true) :
    attrScan (k ++ ['=', quot, quot]) = [(String.mk k, some "")] ∧
    attrScan k = [(String.mk k, none)] := by
  obtain ⟨c, k2, rfl⟩ := List.exists_cons_of_ne_nil hne
  have hc := hkey c (by simp)
  have hks : ∀ a ∈ k2, isAttrKeyChar a = true := fun a ha => hkey a (by simp [ha])
  have hnil : attrScan [] = [] := by rw [attrScan.eq_def]
  have htake : (k2 ++ ['=', quot, quot]).takeWhile isAttrKeyChar = k2 := by
    rw [takeWhile_append_all _ _ _ hks]
    simp [List.takeWhile_cons, isAttrKeyChar]
  have hdrop : (k2 ++ ['=', quot, quot]).dropWhile isAttrKeyChar = ['=', quot, quot] := by
    rw [dropWhile_append_all _ _ _ hks]
    simp [List.dropWhile_cons, isAttrKeyChar]
  have htake2 : k2.takeWhile isAttrKeyChar = k2 := by
    have := takeWhile_append_all isAttrKeyChar k2 [] hks
    simpa using this
  have hdrop2 : k2.dropWhile isAttrKeyChar = [] := by
    have := dropWhile_append_all isAttrKeyChar k2 [] hks
    simpa using this
  have hq1 : ([quot] : List Char).dropWhile (fun ch => ch ≠ quot) = [quot] := by decide
  have hq2 : ([quot] : List Char).takeWhile (fun ch => ch ≠ quot) = [] := by decide
  constructor
  · rw [List.cons_append, attrScan.eq_def]
    simp only []
    rw [if_pos hc]
    split
    · rename_i e q more heq
      rw [hdrop] at heq
      cases heq
      rw [if_pos ⟨rfl, rfl⟩]
      split
      · rename_i head tail heq2
        rw [hq1] at heq2
        cases heq2
        rw [htake, hnil, hq2]
      · rename_i heq2
        rw [hq1] at heq2
        cases heq2
    · rename_i heq
      exact (heq '=' quot [quot] (by simp [hdrop])).elim
  · rw [attrScan.eq_def]
    simp only []
    rw [if_pos hc]
    split
    · rename_i e q more heq
      rw [hdrop2] at heq
      cases heq
    · rename_i heq
      rw [htake2, hdrop2, hnil]

/-- C10: an attribute written with an explicit empty-string value
(k="") stores the boolean `true` — `pair[2] || true` treats the
captured empty string as falsy — which is exactly what a value-less
attribute stores, so the two are indistinguishable in the parsed
props. -/
theorem c10_empty_value_attr_is_boolean (k : String) (hne : k ≠ "")
    (hkey : ∀ c ∈ k.data, isAttrKeyChar c = true) :
    parseProps (k ++ String.mk ['=', quot, quot]) = [(k, PropVal.boolTrue)] ∧
    parseProps k = [(k, PropVal.boolTrue)] := by
  obtain ⟨d⟩ := k
  have hne2 : d ≠ [] := fun h => hne (by rw [h])
  obtain ⟨hs1, hs2⟩ := c10_attr_scan d hne2 hkey
  have hd : (String.mk d ++ String.mk ['=', quot, quot]).data = d ++ ['=', quot, quot] := by
    rw [String.data_append]
  constructor
  · rw [parseProps, hd, parsePropsL, hs1]
    simp [objAssign, propValOr]
  · rw [parseProps, parsePropsL]
    show (attrScan d).foldl _ [] = _
    rw [hs2]
    simp [objAssign, propValOr]

/-- Witness for C10 at the attribute string `disabled=""` (and the bare
`disabled`). -/
theorem c10_empty_value_attr_is_boolean_witness :
    (("disabled" : String) ≠ "") ∧
    (∀ c ∈ ("disabled" : String).data, isAttrKeyChar c = true) ∧
    parseProps ("disabled" ++ String.mk ['=', quot, quot]) =
      [("disabled", PropVal.boolTrue)] :=
  ⟨by decide, by decide,
   (c10_empty_value_attr_is_boolean "disabled" (by decide) (by decide)).1⟩
